import Mathlib

/-!
# User service (HTTP + gRPC front ends over one GORM handle)

A shallow embedding of `main.go`: the `User`/`Address` records, the data
access functions `insertSql` and `querySql`, the HTTP handlers
(`userHandler`, `createUser`, `getUserById`, `middleware`), the gRPC methods
(`rpcServer.CreateUser`, `rpcServer.GetUser`) and the shutdown sequence of
`main`.

Conventions of the embedding:

* Go's `uint`/`int` are 64 bit; `uint8`, `uint32`, `int64` conversions are
  written with explicit `% 2 ^ w`.
* Effects are explicit.  A `World` carries the logger output, the trace of
  calls made to the persistence layer, the HTTP response being written and a
  clock.  A call ends in an `Outcome`: it returns, or the process exits
  (`logger.Fatal` calls `os.Exit(1)`), or the goroutine panics.
* The persistence layer (`*gorm.DB`) is a collaborator, given as a `DB`
  record of answers; every handler of the program calls it at most once per
  request.
* Library behaviour the program relies on (`strconv.Atoi`,
  `strings.TrimPrefix`, `encoding/json` decoding into the `User` struct,
  `http.Error`, the implicit `200` of the first `Write`) is modelled next to
  the code that uses it.
-/

namespace GormOracle

/-! ## Machine integers -/

/-- Conversion `uint8(x)` of an unsigned value: truncation to 8 bits. -/
def toUint8 (n : Nat) : Nat := n % 2 ^ 8

/-- Conversion `uint32(x)` of an unsigned value: truncation to 32 bits. -/
def toUint32 (n : Nat) : Nat := n % 2 ^ 32

/-- Conversion `uint(x)` of a signed 64-bit value: two's complement
reinterpretation, that is the value modulo `2 ^ 64`. -/
def toUint (i : Int) : Nat := (i % 2 ^ 64).toNat

/-- Conversion `int64(x)` of a `uint`: two's complement reinterpretation. -/
def toInt64 (n : Nat) : Int :=
  if n % 2 ^ 64 < 2 ^ 63 then ((n % 2 ^ 64 : Nat) : Int) else ((n % 2 ^ 64 : Nat) : Int) - 2 ^ 64

/-! ## Data model (`gorm.Model`, `Address`, `User`) -/

/-- An instant (`time.Time`), as an offset from the zero instant. -/
structure Time where
  nanos : Int
  deriving DecidableEq, Repr

/-- The zero `time.Time`. -/
def Time.zero : Time := ⟨0⟩

/-- The type `gorm.DeletedAt` (a `sql.NullTime`). -/
structure DeletedAt where
  Time : Time
  Valid : Bool
  deriving DecidableEq, Repr

/-- The zero `gorm.DeletedAt`. -/
def DeletedAt.zero : DeletedAt := ⟨Time.zero, false⟩

/-- The struct `gorm.Model` embedded in both records:
`ID uint; CreatedAt, UpdatedAt time.Time; DeletedAt gorm.DeletedAt`.
None of its fields has a `json` tag. -/
structure Model where
  ID : Nat
  CreatedAt : Time
  UpdatedAt : Time
  DeletedAt : DeletedAt
  deriving DecidableEq, Repr

/-- The zero `gorm.Model`. -/
def Model.zero : Model := ⟨0, Time.zero, Time.zero, DeletedAt.zero⟩

/-- The struct `Address` of `main.go`; `gorm.Model` is embedded. -/
structure Address extends Model where
  UserID : Nat
  City : String
  ZipCode : String
  deriving DecidableEq, Repr

/-- The zero `Address`. -/
def Address.zero : Address := { toModel := Model.zero, UserID := 0, City := "", ZipCode := "" }

/-- The struct `User` of `main.go`; `gorm.Model` is embedded. -/
structure User extends Model where
  FirstName : String
  Age : Nat
  Address : Address
  deriving DecidableEq, Repr

/-- The zero `User` (the value of `var user User`). -/
def User.zero : User :=
  { toModel := Model.zero, FirstName := "", Age := 0, Address := Address.zero }

/-! ## JSON values and `encoding/json` decoding into `User` -/

/-- A JSON value as the scanner of `encoding/json` delivers it.  A number
keeps what the decoder looks at: whether the literal has a minus sign, its
integer part, and whether it has a fraction or an exponent. -/
inductive JSON where
  | null
  | bool (b : Bool)
  | num (neg : Bool) (int : Nat) (fracOrExp : Bool)
  | str (s : String)
  | arr (items : List JSON)
  | obj (members : List (String × JSON))
  deriving Repr

/-- The JSON number literal of a natural number. -/
def JSON.nat (n : Nat) : JSON := .num false n false

/-- The word `encoding/json` uses for the kind of a value in an
`UnmarshalTypeError`. -/
def JSON.kind : JSON → String
  | .null => "null"
  | .bool _ => "bool"
  | .num _ _ _ => "number"
  | .str _ => "string"
  | .arr _ => "array"
  | .obj _ => "object"

/-- Errors of `Decoder.Decode`. -/
inductive JsonError where
  /-- The body is empty (`io.EOF`) or is not JSON text (`*json.SyntaxError`). -/
  | malformed (msg : String)
  /-- An `*json.UnmarshalTypeError`: a value of kind `value` cannot be stored
  in the Go field `field`. -/
  | unmarshalType (value : String) (field : String)
  /-- An error of `Time.UnmarshalJSON` for the Go field `field`. -/
  | time (field : String)
  deriving DecidableEq, Repr

/-- Library tables the decoder and encoder use: the case folding of member
names (`foldName` of `encoding/json`) and the RFC 3339 parser and printer of
`time.Time`. -/
structure Lib where
  foldName : String → String
  parseTime : String → Option Time
  formatTime : Time → String

/-- State of one `Decode`: the value being filled and the first saved
`UnmarshalTypeError` (`d.savedError`). -/
structure Dec (α : Type) where
  val : α
  saved : Option JsonError

/-- The method `d.saveError`: only the first error is kept. -/
def saveError (saved : Option JsonError) (e : JsonError) : Option JsonError :=
  match saved with
  | some s => some s
  | none => some e

/-- Decoding into an unsigned integer field of `bits` bits: `null` is
skipped, a number literal must pass `strconv.ParseUint` and fit the field,
anything else is an `UnmarshalTypeError`, saved while decoding goes on. -/
def decodeUint (bits : Nat) (field : String) (j : JSON) (cur : Nat)
    (saved : Option JsonError) : Nat × Option JsonError :=
  match j with
  | .null => (cur, saved)
  | .num neg n fe =>
    if !neg && !fe && decide (n < 2 ^ bits) then (n, saved)
    else (cur, saveError saved (.unmarshalType "number" field))
  | v => (cur, saveError saved (.unmarshalType v.kind field))

/-- Decoding into a `string` field. -/
def decodeString (field : String) (j : JSON) (cur : String)
    (saved : Option JsonError) : String × Option JsonError :=
  match j with
  | .null => (cur, saved)
  | .str s => (s, saved)
  | v => (cur, saveError saved (.unmarshalType v.kind field))

/-- The method `Time.UnmarshalJSON`: `null` is a no-op, a string must parse
as RFC 3339, anything else is an error.  Its error aborts the decoding. -/
def decodeTime (lib : Lib) (field : String) (j : JSON) (cur : Time) : Except JsonError Time :=
  match j with
  | .null => .ok cur
  | .str s =>
    match lib.parseTime s with
    | some t => .ok t
    | none => .error (.time field)
  | _ => .error (.time field)

/-- The method `DeletedAt.UnmarshalJSON`: `null` clears `Valid`; otherwise
the value is unmarshalled into `Time` and `Valid` is set on success. -/
def decodeDeletedAt (lib : Lib) (field : String) (j : JSON) (cur : DeletedAt) :
    Except JsonError DeletedAt :=
  match j with
  | .null => .ok { cur with Valid := false }
  | v =>
    match decodeTime lib field v cur.Time with
    | .ok t => .ok { Time := t, Valid := true }
    | .error e => .error e

/-- Field lookup of the struct decoder: the field whose JSON name is exactly
the member name, otherwise the first field whose folded name equals the
folded member name. -/
def lookupField {F : Type} (lib : Lib) (table : List (String × F)) (key : String) : Option F :=
  match table.find? (fun p => p.1 == key) with
  | some p => some p.2
  | none =>
    match table.find? (fun p => lib.foldName p.1 == lib.foldName key) with
    | some p => some p.2
    | none => none

/-- JSON-visible fields of `Address`, the promoted fields of the embedded
`gorm.Model` first. -/
inductive AddressField where
  | ID | CreatedAt | UpdatedAt | DeletedAt | UserID | City | ZipCode
  deriving DecidableEq, Repr

/-- JSON names of the fields of `Address`: the Go name for the untagged
fields of `gorm.Model`, the `json` tag for the others. -/
def addressFields : List (String × AddressField) :=
  [("ID", .ID), ("CreatedAt", .CreatedAt), ("UpdatedAt", .UpdatedAt), ("DeletedAt", .DeletedAt),
   ("userId", .UserID), ("city", .City), ("zipCode", .ZipCode)]

/-- JSON-visible fields of `User`. -/
inductive UserField where
  | ID | CreatedAt | UpdatedAt | DeletedAt | FirstName | Age | Address
  deriving DecidableEq, Repr

/-- JSON names of the fields of `User`. -/
def userFields : List (String × UserField) :=
  [("ID", .ID), ("CreatedAt", .CreatedAt), ("UpdatedAt", .UpdatedAt), ("DeletedAt", .DeletedAt),
   ("firstname", .FirstName), ("age", .Age), ("address", .Address)]

/-- Storing one member of a JSON object into an `Address`. -/
def decodeAddressMember (lib : Lib) (st : Dec Address) (key : String) (v : JSON) :
    Except JsonError (Dec Address) :=
  match lookupField lib addressFields key with
  | none => .ok st
  | some .ID =>
    let r := decodeUint 64 "User.address.ID" v st.val.ID st.saved
    .ok { val := { st.val with ID := r.1 }, saved := r.2 }
  | some .CreatedAt =>
    match decodeTime lib "User.address.CreatedAt" v st.val.CreatedAt with
    | .ok t => .ok { st with val := { st.val with CreatedAt := t } }
    | .error e => .error e
  | some .UpdatedAt =>
    match decodeTime lib "User.address.UpdatedAt" v st.val.UpdatedAt with
    | .ok t => .ok { st with val := { st.val with UpdatedAt := t } }
    | .error e => .error e
  | some .DeletedAt =>
    match decodeDeletedAt lib "User.address.DeletedAt" v st.val.DeletedAt with
    | .ok t => .ok { st with val := { st.val with DeletedAt := t } }
    | .error e => .error e
  | some .UserID =>
    let r := decodeUint 64 "User.address.userId" v st.val.UserID st.saved
    .ok { val := { st.val with UserID := r.1 }, saved := r.2 }
  | some .City =>
    let r := decodeString "User.address.city" v st.val.City st.saved
    .ok { val := { st.val with City := r.1 }, saved := r.2 }
  | some .ZipCode =>
    let r := decodeString "User.address.zipCode" v st.val.ZipCode st.saved
    .ok { val := { st.val with ZipCode := r.1 }, saved := r.2 }

/-- Storing the members of a JSON object into an `Address`, in order. -/
def decodeAddressMembers (lib : Lib) : List (String × JSON) → Dec Address →
    Except JsonError (Dec Address)
  | [], st => .ok st
  | (k, v) :: rest, st =>
    match decodeAddressMember lib st k v with
    | .ok st1 => decodeAddressMembers lib rest st1
    | .error e => .error e

/-- Decoding a JSON value into the `Address` field of a `User`. -/
def decodeAddress (lib : Lib) (j : JSON) (st : Dec Address) : Except JsonError (Dec Address) :=
  match j with
  | .null => .ok st
  | .obj members => decodeAddressMembers lib members st
  | v => .ok { st with saved := saveError st.saved (.unmarshalType v.kind "User.address") }

/-- Storing one member of a JSON object into a `User`. -/
def decodeUserMember (lib : Lib) (st : Dec User) (key : String) (v : JSON) :
    Except JsonError (Dec User) :=
  match lookupField lib userFields key with
  | none => .ok st
  | some .ID =>
    let r := decodeUint 64 "User.ID" v st.val.ID st.saved
    .ok { val := { st.val with ID := r.1 }, saved := r.2 }
  | some .CreatedAt =>
    match decodeTime lib "User.CreatedAt" v st.val.CreatedAt with
    | .ok t => .ok { st with val := { st.val with CreatedAt := t } }
    | .error e => .error e
  | some .UpdatedAt =>
    match decodeTime lib "User.UpdatedAt" v st.val.UpdatedAt with
    | .ok t => .ok { st with val := { st.val with UpdatedAt := t } }
    | .error e => .error e
  | some .DeletedAt =>
    match decodeDeletedAt lib "User.DeletedAt" v st.val.DeletedAt with
    | .ok t => .ok { st with val := { st.val with DeletedAt := t } }
    | .error e => .error e
  | some .FirstName =>
    let r := decodeString "User.firstname" v st.val.FirstName st.saved
    .ok { val := { st.val with FirstName := r.1 }, saved := r.2 }
  | some .Age =>
    let r := decodeUint 8 "User.age" v st.val.Age st.saved
    .ok { val := { st.val with Age := r.1 }, saved := r.2 }
  | some .Address =>
    match decodeAddress lib v { val := st.val.Address, saved := st.saved } with
    | .ok a => .ok { val := { st.val with Address := a.val }, saved := a.saved }
    | .error e => .error e

/-- Storing the members of a JSON object into a `User`, in order. -/
def decodeUserMembers (lib : Lib) : List (String × JSON) → Dec User →
    Except JsonError (Dec User)
  | [], st => .ok st
  | (k, v) :: rest, st =>
    match decodeUserMember lib st k v with
    | .ok st1 => decodeUserMembers lib rest st1
    | .error e => .error e

/-- Decoding a JSON value into `var user User`: the result of
`d.unmarshal`, an aborting error first, the saved error otherwise. -/
def decodeUser (lib : Lib) (j : JSON) : Except JsonError User :=
  let start : Dec User := { val := User.zero, saved := none }
  let r : Except JsonError (Dec User) :=
    match j with
    | .null => .ok start
    | .obj members => decodeUserMembers lib members start
    | v => .ok { start with saved := saveError start.saved (.unmarshalType v.kind "User") }
  match r with
  | .error e => .error e
  | .ok st =>
    match st.saved with
    | some e => .error e
    | none => .ok st.val

/-- The body of a request as `json.NewDecoder(r.Body)` sees it: either the
scanner fails before a complete first value (empty body, text that is not
JSON), or it delivers the first JSON value of the stream. -/
inductive ReqBody where
  | bad (msg : String)
  | value (v : JSON)

/-- The call `json.NewDecoder(r.Body).Decode(&user)`. -/
def decodeBody (lib : Lib) : ReqBody → Except JsonError User
  | .bad msg => .error (.malformed msg)
  | .value v => decodeUser lib v

/-! ## `strconv.Atoi` and `strings.TrimPrefix` -/

/-- The two errors of `strconv`: `ErrSyntax` and `ErrRange`. -/
inductive NumErrKind where
  | invalidSyntax
  | outOfRange
  deriving DecidableEq, Repr

/-- The digit loop of `strconv.ParseUint(s, 10, 64)`: a character that is
not a decimal digit is a syntax error, a value of `2 ^ 64` or more a range
error, whichever is met first. -/
def parseUintLoop : List Char → Nat → Except NumErrKind Nat
  | [], n => .ok n
  | c :: cs, n =>
    if c.isDigit then
      let n1 := n * 10 + (c.toNat - 48)
      if n1 < 2 ^ 64 then parseUintLoop cs n1 else .error .outOfRange
    else .error .invalidSyntax

/-- The function `strconv.ParseUint(s, 10, 64)`. -/
def parseUint (s : List Char) : Except NumErrKind Nat :=
  match s with
  | [] => .error .invalidSyntax
  | cs => parseUintLoop cs 0

/-- The function `strconv.ParseInt(s, 10, 0)` on a 64-bit platform: an
optional sign, then `ParseUint`; the magnitude must fit `int64`. -/
def parseInt (s : List Char) : Except NumErrKind Int :=
  match s with
  | [] => .error .invalidSyntax
  | c :: cs =>
    let neg := c == '-'
    let digits := if c == '+' || c == '-' then cs else c :: cs
    match parseUint digits with
    | .error .invalidSyntax => .error .invalidSyntax
    | .error .outOfRange => .error .outOfRange
    | .ok un =>
      if !neg && decide (un ≥ 2 ^ 63) then .error .outOfRange
      else if neg && decide (un > 2 ^ 63) then .error .outOfRange
      else .ok (if neg then -(un : Int) else (un : Int))

/-- The function `strconv.Atoi`: `ParseInt(s, 10, 0)` (its fast path for
short inputs computes the same result). -/
def Atoi (s : String) : Except NumErrKind Int := parseInt s.data

/-- The function `strings.TrimPrefix`. -/
def TrimPrefix (s pre : String) : String :=
  if pre.data.isPrefixOf s.data then String.mk (s.data.drop pre.data.length) else s

/-! ## Effects: logger, persistence calls, HTTP response -/

/-- Errors that reach a handler.  An error is identified by where its text
comes from; `errors.New(err.Error())` is the same text again. -/
inductive GoError where
  /-- An error reported by `*gorm.DB`, with its text. -/
  | store (text : String)
  /-- The `*strconv.NumError` of `strconv.Atoi` on `input`. -/
  | atoi (input : String) (kind : NumErrKind)
  /-- An error of `Decoder.Decode`. -/
  | json (e : JsonError)
  deriving DecidableEq, Repr

/-- One line of logger output. -/
inductive LogEntry where
  /-- The calls `logger.Println(text)`, `logger.Print(text)`. -/
  | msg (text : String)
  /-- The call `logger.Printf("body %v", user)`. -/
  | bodyUser (u : User)
  /-- The call `logger.Printf("Data id inserted %v", id)`. -/
  | insertedId (id : Nat)
  /-- The call `logger.Println(id)` of `querySql`. -/
  | queryId (id : Nat)
  /-- The call `logger.Printf("Request %v %v", method, url)`. -/
  | request (method url : String)
  /-- The call `logger.Printf("Response time %v μs", elapsed)`. -/
  | responseTime (micros : Nat)
  /-- The output of `logger.Fatal(text)`, which then calls `os.Exit(1)`. -/
  | fatal (text : String)
  deriving DecidableEq, Repr

/-- A call made to the persistence layer. -/
inductive DbCall where
  /-- The call `db.Create(&user)`. -/
  | create (u : User)
  /-- The call `db.Model(&User{}).Preload(clause.Associations).Find(&user, id)`. -/
  | find (id : Nat)
  deriving DecidableEq, Repr

/-- What one `Find(&user, id)` does: it reports an error, or it matches no
row (GORM's `Find` then reports no error and leaves `user` untouched; only
`First`, `Take` and `Last` report `ErrRecordNotFound`), or it loads a row with
its address. -/
inductive FindResult where
  | failed (text : String)
  | noRow
  | row (u : User)
  deriving DecidableEq, Repr

/-- The persistence layer as the handlers see it: the answer to
`db.Create(&user)` (an error text, or the value of `user.ID` afterwards) and
the answer to `Find(&user, id)`. -/
structure DB where
  create : User → Except String Nat
  find : Nat → FindResult

/-- One write to the response body. -/
inductive BodyPart where
  /-- The text of an error and a newline (`fmt.Fprintln(w, error)`). -/
  | errorLine (e : GoError)
  /-- The JSON text of a value and a newline (`Encoder.Encode`). -/
  | jsonLine (v : JSON)

/-- An `http.ResponseWriter`: the header map, the status code once the
header has been written, and the body written so far. -/
structure ResponseWriter where
  header : List (String × String)
  status : Option Nat
  body : List BodyPart

/-- A response writer nothing has been written to. -/
def ResponseWriter.fresh : ResponseWriter := { header := [], status := none, body := [] }

/-- The call `w.Header().Add(key, value)`. -/
def ResponseWriter.headerAdd (w : ResponseWriter) (key value : String) : ResponseWriter :=
  { w with header := w.header ++ [(key, value)] }

/-- The call `w.Header().Del(key)`. -/
def ResponseWriter.headerDel (w : ResponseWriter) (key : String) : ResponseWriter :=
  { w with header := w.header.filter (fun p => p.1 != key) }

/-- The call `w.Header().Set(key, value)`. -/
def ResponseWriter.headerSet (w : ResponseWriter) (key value : String) : ResponseWriter :=
  { w with header := w.header.filter (fun p => p.1 != key) ++ [(key, value)] }

/-- The call `w.WriteHeader(code)`: only the first call sets the status. -/
def ResponseWriter.WriteHeader (w : ResponseWriter) (code : Nat) : ResponseWriter :=
  match w.status with
  | some _ => w
  | none => { w with status := some code }

/-- The call `w.Write(...)`: writes the header with status 200 first if it
has not been written. -/
def ResponseWriter.Write (w : ResponseWriter) (part : BodyPart) : ResponseWriter :=
  { w with status := some (w.status.getD 200), body := w.body ++ [part] }

/-- The function `http.Error(w, err.Error(), code)`. -/
def httpError (w : ResponseWriter) (e : GoError) (code : Nat) : ResponseWriter :=
  ((((w.headerDel "Content-Length").headerSet "Content-Type" "text/plain; charset=utf-8").headerSet
    "X-Content-Type-Options" "nosniff").WriteHeader code).Write (.errorLine e)

/-- The state a call works on. -/
structure World where
  log : List LogEntry
  calls : List DbCall
  resp : ResponseWriter
  now : Nat

/-- A world in which nothing has happened yet. -/
def World.start : World := { log := [], calls := [], resp := ResponseWriter.fresh, now := 0 }

/-- Appending a line to the logger output. -/
def World.logAdd (w : World) (e : LogEntry) : World := { w with log := w.log ++ [e] }

/-- Recording a call to the persistence layer. -/
def World.callAdd (w : World) (c : DbCall) : World := { w with calls := w.calls ++ [c] }

/-- How a call ends: it returns a value, or `os.Exit(code)` ends the
process, or the goroutine panics. -/
inductive Outcome (α : Type) where
  | ret (a : α) (w : World)
  | exit (code : Nat) (w : World)
  | panic (w : World)

/-- The world at the end of a call. -/
def Outcome.world {α : Type} : Outcome α → World
  | .ret _ w => w
  | .exit _ w => w
  | .panic w => w

/-- The call returned (the process goes on). -/
def Outcome.returned {α : Type} : Outcome α → Bool
  | .ret _ _ => true
  | _ => false

/-! ## Data access layer -/

/-- The function `insertSql` of `main.go`. -/
def insertSql (db : DB) (user : User) (w : World) : Outcome (Except GoError Nat) :=
  let w1 := w.callAdd (.create user)
  match db.create user with
  | .error text => .ret (.error (.store text)) (w1.logAdd (.msg text))
  | .ok id => .ret (.ok id) (w1.logAdd (.insertedId id))

/-- The function `querySql` of `main.go`.  On an error `logger.Fatal` ends
the process, so the `return nil, err` after it is never reached. -/
def querySql (db : DB) (id : Nat) (w : World) : Outcome (Except GoError User) :=
  let w1 := (w.logAdd (.queryId id)).callAdd (.find id)
  match db.find id with
  | .failed text => .exit 1 (w1.logAdd (.fatal text))
  | .noRow => .ret (.ok User.zero) w1
  | .row u => .ret (.ok u) w1

/-! ## HTTP service -/

/-- What the handlers read of an `*http.Request`. -/
structure Request where
  Method : String
  Path : String
  Body : ReqBody

/-- An `http.HandlerFunc`, with the persistence layer already bound. -/
abbrev Handler := Request → World → Outcome Unit

/-- Members that `encoding/json` writes for the embedded `gorm.Model`. -/
def encodeModel (lib : Lib) (m : Model) : List (String × JSON) :=
  [("ID", .nat m.ID), ("CreatedAt", .str (lib.formatTime m.CreatedAt)),
   ("UpdatedAt", .str (lib.formatTime m.UpdatedAt)),
   ("DeletedAt", if m.DeletedAt.Valid then .str (lib.formatTime m.DeletedAt.Time) else .null)]

/-- JSON encoding of an `Address`. -/
def encodeAddress (lib : Lib) (a : Address) : JSON :=
  .obj (encodeModel lib a.toModel ++
    [("userId", .nat a.UserID), ("city", .str a.City), ("zipCode", .str a.ZipCode)])

/-- JSON encoding of a `User`. -/
def encodeUser (lib : Lib) (u : User) : JSON :=
  .obj (encodeModel lib u.toModel ++
    [("firstname", .str u.FirstName), ("age", .nat u.Age), ("address", encodeAddress lib u.Address)])

/-- The function `createUser` of `main.go`. -/
def createUser (lib : Lib) (db : DB) (r : Request) (w : World) : Outcome Unit :=
  match decodeBody lib r.Body with
  | .error e => .ret () { w with resp := httpError w.resp (.json e) 400 }
  | .ok user =>
    match insertSql db user (w.logAdd (.bodyUser user)) with
    | .ret (.error e) w1 => .ret () { w1 with resp := httpError w1.resp e 500 }
    | .ret (.ok id) w1 =>
      .ret () { w1 with resp := w1.resp.Write (.jsonLine (.obj [("id", .nat id)])) }
    | .exit code w1 => .exit code w1
    | .panic w1 => .panic w1

/-- The function `getUserById` of `main.go`. -/
def getUserById (lib : Lib) (db : DB) (w : World) (id : String) : Outcome Unit :=
  match Atoi id with
  | .error kind => .ret () { w with resp := httpError w.resp (.atoi id kind) 400 }
  | .ok idInt =>
    match querySql db (toUint idInt) w with
    | .ret (.error e) w1 => .ret () { w1 with resp := httpError w1.resp e 500 }
    | .ret (.ok user) w1 =>
      .ret () { w1 with resp := w1.resp.Write (.jsonLine (encodeUser lib user)) }
    | .exit code w1 => .exit code w1
    | .panic w1 => .panic w1

/-- The function `userHandler` of `main.go`. -/
def userHandler (lib : Lib) (db : DB) : Handler := fun r w =>
  let id := TrimPrefix r.Path "/users/"
  if r.Method = "POST" then createUser lib db r w
  else if r.Method = "GET" then
    if id ≠ "" then getUserById lib db w id else .ret () w
  else .ret () w

/-- The world in which `middleware` starts the wrapped handler: the
`Content-Type` header added and the request line logged. -/
def middlewareEntry (r : Request) (w : World) : World :=
  { w with resp := w.resp.headerAdd "Content-Type" "application/json" }.logAdd
    (.request r.Method r.Path)

/-- The function `middleware` of `main.go`. -/
def middleware (handler : Handler) : Handler := fun r w =>
  let start := w.now
  match handler r (middlewareEntry r w) with
  | .ret () w1 => .ret () (w1.logAdd (.responseTime ((w1.now - start) / 1000)))
  | .exit code w1 => .exit code w1
  | .panic w1 => .panic w1

/-! ## RPC service -/

/-- Modelled from the spec: the generated message `pb.Address` (package
`proto` is not among the sources); the fields are the ones `main.go` reads. -/
structure PbAddress where
  City : String
  ZipCode : String
  deriving DecidableEq, Repr

/-- Modelled from the spec: the generated message `pb.User` (package `proto`
is not among the sources); `Age` is a 32-bit unsigned wire value and
`Address` is a pointer that is nil when the sub-message is absent. -/
structure PbUser where
  Firstname : String
  Age : Nat
  Address : Option PbAddress
  deriving DecidableEq, Repr

/-- Modelled from the spec: the generated message `pb.CreateUserRequest`;
`User` is nil when the sub-message is absent, and `GetUser()` returns it. -/
structure CreateUserRequest where
  User : Option PbUser
  deriving DecidableEq, Repr

/-- Modelled from the spec: the generated message `pb.CreateUserResponses`. -/
structure CreateUserResponses where
  Id : Int
  deriving DecidableEq, Repr

/-- Modelled from the spec: the generated message `pb.ReadUserRequest`, its
identity a signed 64-bit wire value. -/
structure ReadUserRequest where
  Id : Int
  deriving DecidableEq, Repr

/-- Modelled from the spec: the generated message `pb.ReadUserResponse`. -/
structure ReadUserResponse where
  User : Option PbUser
  deriving DecidableEq, Repr

/-- The method `(*rpcServer).CreateUser` of `main.go`.  The fields of
`reqUser` and of `reqUser.Address` are read directly, which panics on a nil
pointer. -/
def rpcServer.CreateUser (db : DB) (req : CreateUserRequest) (w : World) :
    Outcome (Except GoError CreateUserResponses) :=
  let w1 := w.logAdd (.msg "Create User")
  match req.User with
  | none => .panic w1
  | some reqUser =>
    match reqUser.Address with
    | none => .panic w1
    | some address =>
      let user : User :=
        { User.zero with
          FirstName := reqUser.Firstname
          Age := toUint8 reqUser.Age
          Address := { Address.zero with City := address.City, ZipCode := address.ZipCode } }
      match insertSql db user w1 with
      | .ret (.error e) w2 => .ret (.error e) w2
      | .ret (.ok id) w2 => .ret (.ok { Id := toInt64 id }) w2
      | .exit code w2 => .exit code w2
      | .panic w2 => .panic w2

/-- The method `(*rpcServer).GetUser` of `main.go`. -/
def rpcServer.GetUser (db : DB) (req : ReadUserRequest) (w : World) :
    Outcome (Except GoError ReadUserResponse) :=
  let w1 := w.logAdd (.msg "Get User")
  match querySql db (toUint req.Id) w1 with
  | .ret (.error e) w2 => .ret (.error e) w2
  | .ret (.ok user) w2 =>
    let address : PbAddress := { City := user.Address.City, ZipCode := user.Address.ZipCode }
    let pbUser : PbUser :=
      { Firstname := user.FirstName, Age := toUint32 user.Age, Address := some address }
    .ret (.ok { User := some pbUser }) w2
  | .exit code w2 => .exit code w2
  | .panic w2 => .panic w2

/-! ## Process supervisor (`main`) -/

/-- Where the main goroutine stands once both services have been started. -/
inductive MainPc where
  /-- Blocked on `<-ctx.Done()`. -/
  | waiting
  /-- About to log "got interruption signal". -/
  | signalled
  /-- About to call `httpServer.Shutdown`. -/
  | callShutdown
  /-- Inside `httpServer.Shutdown`: the server is marked as shutting down and
  its listener is closed. -/
  | inShutdown
  /-- About to call `dbSQL.Close`. -/
  | callClose
  /-- About to return from `main`. -/
  | returning
  deriving DecidableEq, Repr

/-- A goroutine of the shape `logger.Fatal(serve())`: inside the serve call,
or about to run `logger.Fatal` on the error the serve call returned. -/
inductive ServePc where
  | serving
  | failing (text : String)
  deriving DecidableEq, Repr

/-- The process after `Starting`: the main goroutine, the goroutine
`logger.Fatal(httpServer.ListenAndServe())`, the goroutine `startinggRPC`, the
server's shutdown flag, the state of the connection pool and the exit code
once the process has ended. -/
structure Proc where
  mainPc : MainPc
  httpPc : ServePc
  grpcPc : ServePc
  shuttingDown : Bool
  poolClosed : Bool
  exited : Option Nat
  log : List LogEntry
  deriving DecidableEq, Repr

/-- The process in state `Running`. -/
def Proc.running : Proc :=
  { mainPc := .waiting, httpPc := .serving, grpcPc := .serving, shuttingDown := false,
    poolClosed := false, exited := none, log := [] }

/-- What the scheduler and the environment can make happen next. -/
inductive Event where
  /-- SIGINT or SIGTERM arrives: `ctx.Done()` is closed. -/
  | signal
  /-- The main goroutine runs its next statement; `err` is the error of the
  library call that returns in this step (`Shutdown`, `Close`), if any. -/
  | mainStep (err : Option String)
  /-- The listener of the HTTP server fails while the server is not shutting
  down, and `ListenAndServe` returns the error. -/
  | httpListenFails (text : String)
  /-- After `Shutdown` has been called `ListenAndServe` returns
  `ErrServerClosed` at once (documented in `net/http`). -/
  | httpServerClosed
  /-- The HTTP goroutine runs `logger.Fatal` on the returned error. -/
  | httpFatal
  /-- The call `net.Listen` or `s.Serve` of `startinggRPC` fails. -/
  | grpcFails (text : String)
  /-- The gRPC goroutine runs `logger.Fatalf` on the error. -/
  | grpcFatal
  deriving DecidableEq, Repr

/-- Logging of an error that is not escalated. -/
def logErr (log : List LogEntry) (what : String) : Option String → List LogEntry
  | none => log
  | some text => log ++ [.msg (what ++ text)]

/-- One step of the main goroutine, following the statements of `main` after
`<-ctx.Done()`. -/
def mainStep (p : Proc) (err : Option String) : Option Proc :=
  match p.mainPc with
  | .waiting => none
  | .signalled =>
    some { p with mainPc := .callShutdown, log := p.log ++ [.msg "got interruption signal"] }
  | .callShutdown => some { p with mainPc := .inShutdown, shuttingDown := true }
  | .inShutdown =>
    some { p with mainPc := .callClose, log := logErr p.log "server shutdown returned an err: " err }
  | .callClose =>
    some { p with mainPc := .returning, poolClosed := true,
                  log := logErr p.log "db close returned an err: " err }
  | .returning => some { p with exited := some 0 }

/-- One step of the process; `none` when the event cannot happen in this
state.  Nothing happens once the process has exited. -/
def step (p : Proc) (e : Event) : Option Proc :=
  match p.exited with
  | some _ => none
  | none =>
    match e with
    | .signal =>
      match p.mainPc with
      | .waiting => some { p with mainPc := .signalled }
      | _ => none
    | .mainStep err => mainStep p err
    | .httpListenFails text =>
      match p.httpPc, p.shuttingDown with
      | .serving, false => some { p with httpPc := .failing text }
      | _, _ => none
    | .httpServerClosed =>
      match p.httpPc, p.shuttingDown with
      | .serving, true => some { p with httpPc := .failing "http: Server closed" }
      | _, _ => none
    | .httpFatal =>
      match p.httpPc with
      | .failing text => some { p with exited := some 1, log := p.log ++ [.fatal text] }
      | .serving => none
    | .grpcFails text =>
      match p.grpcPc with
      | .serving => some { p with grpcPc := .failing text }
      | .failing _ => none
    | .grpcFatal =>
      match p.grpcPc with
      | .failing text => some { p with exited := some 1, log := p.log ++ [.fatal text] }
      | .serving => none

/-- An execution: the events happen one after the other. -/
def run : List Event → Proc → Option Proc
  | [], p => some p
  | e :: es, p =>
    match step p e with
    | some p1 => run es p1
    | none => none

/-- Invariant of the executions from `Proc.running`: `main` is about to
return only with the pool closed, the pool is closed only after `Shutdown` was
called and has returned, and exit code 0 is the return of `main`. -/
def Proc.drainOrder (p : Proc) : Prop :=
  (p.mainPc = .returning → p.poolClosed = true) ∧
  (p.poolClosed = true → p.mainPc = .returning) ∧
  (p.mainPc = .inShutdown ∨ p.mainPc = .callClose ∨ p.mainPc = .returning →
    p.shuttingDown = true) ∧
  (p.exited = some 0 → p.mainPc = .returning)

/-! ## Concrete inputs -/

/-- A library instance for evaluating the definitions: ASCII case folding of
member names, and the zero instant as the only timestamp. -/
def asciiLib : Lib :=
  { foldName := fun s => String.mk (s.data.map Char.toUpper)
    parseTime := fun s => if s = "0001-01-01T00:00:00Z" then some Time.zero else none
    formatTime := fun _ => "0001-01-01T00:00:00Z" }

/-- A store that holds no row and assigns identity 1 to what is created. -/
def emptyStore : DB := { create := fun _ => .ok 1, find := fun _ => .noRow }

/-- A store that holds no row and creates as GORM does: a `User` that
carries an identity of its own is inserted under that identity, one without
gets identity 1. -/
def keepingStore : DB :=
  { create := fun u => .ok (if u.ID = 0 then 1 else u.ID), find := fun _ => .noRow }

/-- The row the store keeps for a created `User`: the fields the program
set, with the identity and lifecycle metadata the persistence layer assigned
to the user (`m`) and to its address (`ma`, `uid`). -/
def storedRow (u : User) (m ma : Model) (uid : Nat) : User :=
  { u with toModel := m, Address := { u.Address with toModel := ma, UserID := uid } }

/-- A store whose connection is broken: every call reports an error. -/
def brokenStore : DB :=
  { create := fun _ => .error "ORA-03113: end-of-file on communication channel"
    find := fun _ => .failed "ORA-03113: end-of-file on communication channel" }

/-- The create payload of the end-to-end example. -/
def crisBody : JSON :=
  .obj [("firstname", .str "cris"), ("age", .nat 26),
        ("address", .obj [("city", .str "jakbar"), ("zipCode", .str "12345")])]

/-- The `User` the end-to-end payload decodes to. -/
def crisUser : User :=
  { User.zero with
    FirstName := "cris"
    Age := 26
    Address := { Address.zero with City := "jakbar", ZipCode := "12345" } }

/-- The end-to-end payload with the age given as a string. -/
def ageStringBody : JSON :=
  .obj [("firstname", .str "cris"), ("age", .str "26"),
        ("address", .obj [("city", .str "jakbar"), ("zipCode", .str "12345")])]

/-- A create payload that names an identity of its own. -/
def identityBody : JSON :=
  .obj [("ID", .nat 7), ("firstname", .str "cris"), ("age", .nat 26),
        ("address", .obj [("userId", .nat 9), ("city", .str "jakbar"), ("zipCode", .str "12345")])]

/-- A `POST /users/` request. -/
def postUsers (body : JSON) : Request := { Method := "POST", Path := "/users/", Body := .value body }

/-- A `GET /users/{id}` request. -/
def getUsers (id : String) : Request :=
  { Method := "GET", Path := "/users/" ++ id, Body := .bad "EOF" }

/-- The `User` that `rpcServer.CreateUser` builds from a request with user
and address present. -/
def rpcUser (firstname : String) (age : Nat) (city zipCode : String) : User :=
  { User.zero with
    FirstName := firstname
    Age := toUint8 age
    Address := { Address.zero with City := city, ZipCode := zipCode } }

/-- The `User` that `identityBody` decodes to. -/
def identityUser : User :=
  { toModel := { Model.zero with ID := 7 }
    FirstName := "cris"
    Age := 26
    Address := { toModel := Model.zero, UserID := 9, City := "jakbar", ZipCode := "12345" } }

/-! ## Bodies that name no identity and no lifecycle metadata -/

/-- A member name of an address object that selects no field of `Address`,
or selects `city` or `zipCode`. -/
def plainAddressKey (lib : Lib) (key : String) : Bool :=
  match lookupField lib addressFields key with
  | none => true
  | some .City => true
  | some .ZipCode => true
  | some _ => false

/-- A member of a user object that selects no field of `User`, or selects
`firstname` or `age`, or selects `address` with a value whose member names are
all plain. -/
def plainUserMember (lib : Lib) (m : String × JSON) : Bool :=
  match lookupField lib userFields m.1 with
  | none => true
  | some .FirstName => true
  | some .Age => true
  | some .Address =>
    match m.2 with
    | .obj members => members.all (fun a => plainAddressKey lib a.1)
    | _ => true
  | some _ => false

/-- A request body in which no member name selects `ID`, `CreatedAt`,
`UpdatedAt`, `DeletedAt` or `userId`, at the top level or in the address. -/
def plainBody (lib : Lib) : ReqBody → Bool
  | .value (.obj members) => members.all (plainUserMember lib)
  | _ => true

/-- The identity and lifecycle fields of an `Address` are zero. -/
def Address.noIdentity (a : Address) : Prop := a.toModel = Model.zero ∧ a.UserID = 0

/-- The identity and lifecycle fields of a `User` and of its `Address` are
zero. -/
def User.noIdentity (u : User) : Prop := u.toModel = Model.zero ∧ u.Address.noIdentity

/-! ## Basic facts about the response writer -/

theorem httpError_status (w : ResponseWriter) (e : GoError) (code : Nat) :
    (httpError w e code).status = some (w.status.getD code) := by
  cases h : w.status <;>
    simp [httpError, ResponseWriter.Write, ResponseWriter.WriteHeader, ResponseWriter.headerSet,
      ResponseWriter.headerDel, h]

theorem httpError_body (w : ResponseWriter) (e : GoError) (code : Nat) :
    (httpError w e code).body = w.body ++ [BodyPart.errorLine e] := by
  cases h : w.status <;>
    simp [httpError, ResponseWriter.Write, ResponseWriter.WriteHeader, ResponseWriter.headerSet,
      ResponseWriter.headerDel, h]

/-! ## HTTP create path -/

/-- C1: when the body of a POST decodes as a `User`, `createUser` calls the
persistence layer exactly once, with the decoded `User`; if the call yields
identity `n` the response has status 200 and the JSON body with member `id`
equal to `n`, and if it yields an error the response has status 500 and
carries the text of that error. -/
theorem createUser_decoded_body (lib : Lib) (db : DB) (r : Request) (w : World) (user : User)
    (hdec : decodeBody lib r.Body = .ok user) (hfresh : w.resp.status = none) :
    (createUser lib db r w).returned = true ∧
    (createUser lib db r w).world.calls = w.calls ++ [DbCall.create user] ∧
    (∀ n, db.create user = .ok n →
      (createUser lib db r w).world.resp.status = some 200 ∧
      (createUser lib db r w).world.resp.body =
        w.resp.body ++ [BodyPart.jsonLine (.obj [("id", .nat n)])]) ∧
    (∀ text, db.create user = .error text →
      (createUser lib db r w).world.resp.status = some 500 ∧
      (createUser lib db r w).world.resp.body =
        w.resp.body ++ [BodyPart.errorLine (.store text)]) := by
  unfold createUser
  rw [hdec]
  cases hc : db.create user with
  | error text =>
    simp [insertSql, hc, Outcome.returned, Outcome.world, World.logAdd, World.callAdd,
      httpError_status, httpError_body, hfresh]
  | ok n =>
    simp [insertSql, hc, Outcome.returned, Outcome.world, World.logAdd, World.callAdd,
      ResponseWriter.Write, hfresh]

/-- C1 at the end-to-end payload: one call with the decoded user, status
200 and the identity the store assigned. -/
theorem createUser_decoded_body_witness :
    decodeBody asciiLib (postUsers crisBody).Body = .ok crisUser ∧
    World.start.resp.status = none ∧
    (createUser asciiLib emptyStore (postUsers crisBody) World.start).world.calls =
      World.start.calls ++ [DbCall.create crisUser] ∧
    (createUser asciiLib emptyStore (postUsers crisBody) World.start).world.resp.status =
      some 200 :=
  ⟨rfl, rfl,
    (createUser_decoded_body asciiLib emptyStore (postUsers crisBody) World.start crisUser
      rfl rfl).2.1,
    ((createUser_decoded_body asciiLib emptyStore (postUsers crisBody) World.start crisUser
      rfl rfl).2.2.1 1 rfl).1⟩

/-- C2: when the body of a POST does not decode as a `User`, `createUser`
answers with status 400 and the text of the decoding error, and makes no call
to the persistence layer. -/
theorem createUser_malformed_body (lib : Lib) (db : DB) (r : Request) (w : World)
    (e : JsonError) (hdec : decodeBody lib r.Body = .error e) (hfresh : w.resp.status = none) :
    (createUser lib db r w).returned = true ∧
    (createUser lib db r w).world.resp.status = some 400 ∧
    (createUser lib db r w).world.resp.body = w.resp.body ++ [BodyPart.errorLine (.json e)] ∧
    (createUser lib db r w).world.calls = w.calls := by
  unfold createUser
  rw [hdec]
  simp [Outcome.returned, Outcome.world, httpError_status, httpError_body, hfresh]

/-- C2 at the payload whose age is a string: the decoder reports a type
error, the answer is 400 and the store is not called. -/
theorem createUser_malformed_body_witness :
    decodeBody asciiLib (postUsers ageStringBody).Body =
      .error (.unmarshalType "string" "User.age") ∧
    World.start.resp.status = none ∧
    (createUser asciiLib emptyStore (postUsers ageStringBody) World.start).world.resp.status =
      some 400 ∧
    (createUser asciiLib emptyStore (postUsers ageStringBody) World.start).world.calls = [] :=
  ⟨rfl, rfl,
    (createUser_malformed_body asciiLib emptyStore (postUsers ageStringBody) World.start
      (.unmarshalType "string" "User.age") rfl rfl).2.1,
    (createUser_malformed_body asciiLib emptyStore (postUsers ageStringBody) World.start
      (.unmarshalType "string" "User.age") rfl rfl).2.2.2⟩

/-! ## HTTP read path -/

/-- The function `querySql` never returns an error to its caller: on an error
of the store the process exits, otherwise a `User` is returned. -/
theorem querySql_never_returns_error (db : DB) (id : Nat) (w w1 : World) (e : GoError) :
    querySql db id w ≠ .ret (.error e) w1 := by
  unfold querySql
  cases db.find id <;> simp

/-- The status 500 is never written by `getUserById` on a fresh response:
its only use follows an error returned by `querySql`. -/
theorem getUserById_status_ne_500 (lib : Lib) (db : DB) (w : World) (id : String)
    (hfresh : w.resp.status = none) :
    (getUserById lib db w id).world.resp.status ≠ some 500 := by
  unfold getUserById
  cases Atoi id with
  | error kind => simp [Outcome.world, httpError_status, hfresh]
  | ok idInt =>
    simp only [querySql]
    cases db.find (toUint idInt) <;>
      simp [Outcome.world, World.logAdd, World.callAdd, ResponseWriter.Write, hfresh]

/-- A segment that `strconv.Atoi` rejects is answered with status 400 and
the store is not called. -/
theorem getUserById_rejected_segment (lib : Lib) (db : DB) (w : World) (id : String)
    (kind : NumErrKind) (hid : Atoi id = .error kind) (hfresh : w.resp.status = none) :
    (getUserById lib db w id).world.resp.status = some 400 ∧
    (getUserById lib db w id).world.calls = w.calls := by
  unfold getUserById
  rw [hid]
  simp [Outcome.world, httpError_status, hfresh]

/-- A segment that `strconv.Atoi` accepts leads to exactly one `Find`, with
the parsed number converted to `uint`. -/
theorem getUserById_accepted_segment (lib : Lib) (db : DB) (w : World) (id : String)
    (idInt : Int) (hid : Atoi id = .ok idInt) :
    (getUserById lib db w id).world.calls = w.calls ++ [DbCall.find (toUint idInt)] := by
  unfold getUserById
  rw [hid]
  simp only [querySql]
  cases db.find (toUint idInt) <;> simp [Outcome.world, World.logAdd, World.callAdd]

/-- C3: for an identity that was never created (the store matches no row
and reports no error) the request `GET /users/5` is answered with status 200
and the JSON of the zero `User`, not with status 500. -/
theorem getUser_never_created_is_success :
    (userHandler asciiLib emptyStore (getUsers "5") World.start).returned = true ∧
    (userHandler asciiLib emptyStore (getUsers "5") World.start).world.calls = [DbCall.find 5] ∧
    (userHandler asciiLib emptyStore (getUsers "5") World.start).world.resp.status = some 200 ∧
    (userHandler asciiLib emptyStore (getUsers "5") World.start).world.resp.body =
      [BodyPart.jsonLine (encodeUser asciiLib User.zero)] :=
  ⟨rfl, rfl, rfl, rfl⟩

/-- C4: the segment `-5` is not rejected: `strconv.Atoi` accepts it,
no status 400 is written, and the store is queried for the identity
`2 ^ 64 - 5`. -/
theorem getUserById_negative_segment :
    Atoi "-5" = .ok (-5) ∧
    (userHandler asciiLib emptyStore (getUsers "-5") World.start).world.calls =
      [DbCall.find 18446744073709551611] ∧
    (userHandler asciiLib emptyStore (getUsers "-5") World.start).world.resp.status = some 200 :=
  ⟨rfl, rfl, rfl⟩

/-- C5: when the store reports an error to `querySql`, neither transport
handler gets it back: under both `getUserById` and `rpcServer.GetUser` the
process exits with code 1 after the fatal log line, and no response status is
written. -/
theorem querySql_error_exits_process :
    getUserById asciiLib brokenStore World.start "5" =
      .exit 1 (((World.start.logAdd (.queryId 5)).callAdd (.find 5)).logAdd
        (.fatal "ORA-03113: end-of-file on communication channel")) ∧
    (getUserById asciiLib brokenStore World.start "5").world.resp.status = none ∧
    rpcServer.GetUser brokenStore { Id := 5 } World.start =
      .exit 1 ((((World.start.logAdd (.msg "Get User")).logAdd (.queryId 5)).callAdd
        (.find 5)).logAdd (.fatal "ORA-03113: end-of-file on communication channel")) :=
  ⟨rfl, rfl, rfl⟩

/-! ## RPC service -/

/-- C10: a `CreateUser` request without the user sub-message, and one
whose user has no address sub-message, make the call panic: it returns neither
a response nor a call failure, and the store is not called. -/
theorem createUser_rpc_absent_submessage_panics :
    rpcServer.CreateUser emptyStore { User := none } World.start =
      .panic (World.start.logAdd (.msg "Create User")) ∧
    rpcServer.CreateUser emptyStore
        { User := some { Firstname := "cris", Age := 26, Address := none } } World.start =
      .panic (World.start.logAdd (.msg "Create User")) :=
  ⟨rfl, rfl⟩

/-- The response `rpcServer.GetUser` builds from any row the store loads
carries the first name, age, city and zip code of that row. -/
theorem rpcGetUser_row (db : DB) (id : Int) (w : World) (u : User)
    (hrow : db.find (toUint id) = .row u) (hage : u.Age < 2 ^ 32) :
    rpcServer.GetUser db { Id := id } w =
      .ret (.ok { User := some { Firstname := u.FirstName, Age := u.Age,
                                 Address := some { City := u.Address.City,
                                                   ZipCode := u.Address.ZipCode } } })
        (((w.logAdd (.msg "Get User")).logAdd (.queryId (toUint id))).callAdd
          (.find (toUint id))) := by
  have h32 : u.Age % 4294967296 = u.Age := Nat.mod_eq_of_lt (by simpa using hage)
  simp [rpcServer.GetUser, querySql, hrow, toUint32, h32]

/-- C7, for the ages the `User` can hold: for a `CreateUser` request with
user and address present and an age below 256, the `User` handed to
`insertSql` has the request's firstname, age, city and zipCode and nothing
else set; and when the store later loads the row it keeps for that `User`,
under whatever identity and lifecycle metadata it assigned, the response
`GetUser` builds carries the same four values as the request. -/
theorem rpc_round_trip_small_age (db db1 : DB) (w w1 : World)
    (firstname city zipCode : String) (age : Nat) (id : Int) (m ma : Model) (uid : Nat)
    (hage : age < 256)
    (hrow : db1.find (toUint id) =
      .row (storedRow (rpcUser firstname age city zipCode) m ma uid)) :
    (rpcServer.CreateUser db
        { User := some { Firstname := firstname, Age := age,
                         Address := some { City := city, ZipCode := zipCode } } } w).world.calls =
      w.calls ++ [DbCall.create (rpcUser firstname age city zipCode)] ∧
    rpcUser firstname age city zipCode =
      { User.zero with
        FirstName := firstname
        Age := age
        Address := { Address.zero with City := city, ZipCode := zipCode } } ∧
    rpcServer.GetUser db1 { Id := id } w1 =
      .ret (.ok { User := some { Firstname := firstname, Age := age,
                                 Address := some { City := city, ZipCode := zipCode } } })
        (((w1.logAdd (.msg "Get User")).logAdd (.queryId (toUint id))).callAdd
          (.find (toUint id))) := by
  have h8 : toUint8 age = age := Nat.mod_eq_of_lt (by simpa using hage)
  have h32 : age % 4294967296 = age := Nat.mod_eq_of_lt (lt_trans hage (by norm_num))
  refine ⟨?_, ?_, ?_⟩
  · unfold rpcServer.CreateUser
    simp only [insertSql]
    cases db.create _ <;> simp [Outcome.world, World.logAdd, World.callAdd, rpcUser]
  · simp [rpcUser, h8]
  · simp [rpcServer.GetUser, querySql, hrow, storedRow, rpcUser, toUint32, h8, h32]

/-- C7 at the end-to-end payload sent over RPC, the store keeping the
user under identity 1. -/
theorem rpc_round_trip_small_age_witness :
    (26 : Nat) < 256 ∧
    (rpcServer.CreateUser emptyStore
        { User := some { Firstname := "cris", Age := 26,
                         Address := some { City := "jakbar", ZipCode := "12345" } } }
        World.start).world.calls =
      World.start.calls ++ [DbCall.create (rpcUser "cris" 26 "jakbar" "12345")] ∧
    rpcServer.GetUser
        { create := emptyStore.create
          find := fun _ => .row (storedRow (rpcUser "cris" 26 "jakbar" "12345")
            { Model.zero with ID := 1 } { Model.zero with ID := 1 } 1) }
        { Id := 1 } World.start =
      .ret (.ok { User := some { Firstname := "cris", Age := 26,
                                 Address := some { City := "jakbar", ZipCode := "12345" } } })
        (((World.start.logAdd (.msg "Get User")).logAdd (.queryId (toUint 1))).callAdd
          (.find (toUint 1))) :=
  ⟨by norm_num,
    (rpc_round_trip_small_age emptyStore
      { create := emptyStore.create
        find := fun _ => .row (storedRow (rpcUser "cris" 26 "jakbar" "12345")
          { Model.zero with ID := 1 } { Model.zero with ID := 1 } 1) }
      World.start World.start "cris" "jakbar" "12345" 26 1
      { Model.zero with ID := 1 } { Model.zero with ID := 1 } 1 (by norm_num) rfl).1,
    (rpc_round_trip_small_age emptyStore
      { create := emptyStore.create
        find := fun _ => .row (storedRow (rpcUser "cris" 26 "jakbar" "12345")
          { Model.zero with ID := 1 } { Model.zero with ID := 1 } 1) }
      World.start World.start "cris" "jakbar" "12345" 26 1
      { Model.zero with ID := 1 } { Model.zero with ID := 1 } 1 (by norm_num) rfl).2.2⟩

/-- C7 fails as stated: for the age 300, which the 32-bit wire type
allows, the `User` handed to `insertSql` has age 44, and the response that
`GetUser` builds from the row kept for it (under identity 1) has age 44 too. -/
theorem rpc_round_trip_age_300 :
    (rpcServer.CreateUser emptyStore
        { User := some { Firstname := "cris", Age := 300,
                         Address := some { City := "jakbar", ZipCode := "12345" } } }
        World.start).world.calls = [DbCall.create (rpcUser "cris" 300 "jakbar" "12345")] ∧
    (rpcUser "cris" 300 "jakbar" "12345").Age = 44 ∧
    (rpcUser "cris" 300 "jakbar" "12345").Age ≠ 300 ∧
    rpcServer.GetUser
        { create := emptyStore.create
          find := fun _ => .row (storedRow (rpcUser "cris" 300 "jakbar" "12345")
            { Model.zero with ID := 1 } { Model.zero with ID := 1 } 1) }
        { Id := 1 } World.start =
      .ret (.ok { User := some { Firstname := "cris", Age := 44,
                                 Address := some { City := "jakbar", ZipCode := "12345" } } })
        (((World.start.logAdd (.msg "Get User")).logAdd (.queryId 1)).callAdd (.find 1)) :=
  ⟨rfl, rfl, by decide, rfl⟩

/-! ## Middleware -/

/-- The status and body that `userHandler` writes do not depend on the
header map, the log or the clock at entry. -/
theorem userHandler_status_body_congr (lib : Lib) (db : DB) (r : Request) (w w1 : World)
    (hs : w1.resp.status = w.resp.status) (hb : w1.resp.body = w.resp.body) :
    (userHandler lib db r w1).world.resp.status = (userHandler lib db r w).world.resp.status ∧
    (userHandler lib db r w1).world.resp.body = (userHandler lib db r w).world.resp.body := by
  unfold userHandler
  simp only
  split
  · unfold createUser
    cases decodeBody lib r.Body with
    | error e => simp [Outcome.world, httpError_status, httpError_body, hs, hb]
    | ok user =>
      simp only [insertSql]
      cases db.create user <;>
        simp [Outcome.world, World.logAdd, World.callAdd, httpError_status, httpError_body,
          ResponseWriter.Write, hs, hb]
  · split
    · split
      · unfold getUserById
        cases Atoi (TrimPrefix r.Path "/users/") with
        | error kind => simp [Outcome.world, httpError_status, httpError_body, hs, hb]
        | ok idInt =>
          simp only [querySql]
          cases db.find (toUint idInt) <;>
            simp [Outcome.world, World.logAdd, World.callAdd, ResponseWriter.Write, hs, hb]
      · simp [Outcome.world, hs, hb]
    · simp [Outcome.world, hs, hb]

/-- C8: `middleware h` runs `h` once, in a world that differs from the
caller's only by the added `Content-Type` header and the logged request line;
the response (status and body included) and the persistence calls at the end
are those at the end of that run of `h`, and the wrapper itself writes no
status and no body.  For the routes of `userHandler` the status and body are
the very ones `userHandler` writes without the wrapper. -/
theorem middleware_preserves_status_and_body (h : Handler) (r : Request) (w : World) :
    (middlewareEntry r w).resp.status = w.resp.status ∧
    (middlewareEntry r w).resp.body = w.resp.body ∧
    (middlewareEntry r w).resp.header = w.resp.header ++ [("Content-Type", "application/json")] ∧
    (middleware h r w).world.resp = (h r (middlewareEntry r w)).world.resp ∧
    (middleware h r w).world.calls = (h r (middlewareEntry r w)).world.calls ∧
    (middleware h r w).returned = (h r (middlewareEntry r w)).returned ∧
    (∀ (lib : Lib) (db : DB),
      (middleware (userHandler lib db) r w).world.resp.status =
        (userHandler lib db r w).world.resp.status ∧
      (middleware (userHandler lib db) r w).world.resp.body =
        (userHandler lib db r w).world.resp.body) := by
  have key : ∀ g : Handler,
      (middleware g r w).world.resp = (g r (middlewareEntry r w)).world.resp ∧
      (middleware g r w).world.calls = (g r (middlewareEntry r w)).world.calls ∧
      (middleware g r w).returned = (g r (middlewareEntry r w)).returned := by
    intro g
    unfold middleware
    cases g r (middlewareEntry r w) <;> simp [Outcome.world, Outcome.returned, World.logAdd]
  refine ⟨rfl, rfl, rfl, (key h).1, (key h).2.1, (key h).2.2, ?_⟩
  intro lib db
  rw [(key (userHandler lib db)).1]
  exact userHandler_status_body_congr lib db r w (middlewareEntry r w) rfl rfl

/-! ## Shutdown -/

/-- C9: an execution in which the signal arrives, `main` logs it and
calls `Shutdown`, `ListenAndServe` returns `ErrServerClosed` and the HTTP
goroutine runs `logger.Fatal`: the process exits with code 1 while `main` is
still inside `Shutdown` and the connection pool has not been closed. -/
theorem shutdown_exits_before_pool_close :
    run [.signal, .mainStep none, .mainStep none, .httpServerClosed, .httpFatal] Proc.running =
      some { mainPc := .inShutdown, httpPc := .failing "http: Server closed",
             grpcPc := .serving, shuttingDown := true, poolClosed := false, exited := some 1,
             log := [.msg "got interruption signal", .fatal "http: Server closed"] } :=
  rfl

/-! ## HTTP create path: identity and lifecycle fields -/

/-- The `User` that `rpcServer.CreateUser` builds never carries an
identity or lifecycle metadata, whatever the request holds. -/
theorem rpcUser_noIdentity (firstname : String) (age : Nat) (city zipCode : String) :
    (rpcUser firstname age city zipCode).noIdentity :=
  ⟨rfl, rfl, rfl⟩

/-- C6: the body `identityBody` names `ID` 7 and, in its address,
`userId` 9; `createUser` accepts it and hands `insertSql` a `User` with
identity 7 and `Address.UserID` 9, not zero, so the request chooses the
identity: a store that creates as GORM does answers with status 200 and the
body with member `id` equal to 7. -/
theorem createUser_identity_from_body :
    decodeBody asciiLib (postUsers identityBody).Body = .ok identityUser ∧
    (createUser asciiLib keepingStore (postUsers identityBody) World.start).world.calls =
      [DbCall.create identityUser] ∧
    identityUser.ID = 7 ∧ identityUser.Address.UserID = 9 ∧ ¬ identityUser.noIdentity ∧
    (createUser asciiLib keepingStore (postUsers identityBody) World.start).world.resp.status =
      some 200 ∧
    (createUser asciiLib keepingStore (postUsers identityBody) World.start).world.resp.body =
      [BodyPart.jsonLine (.obj [("id", .nat 7)])] :=
  ⟨rfl, rfl, rfl, rfl, by simp [User.noIdentity, identityUser, Model.zero], rfl, rfl⟩

theorem decodeAddressMember_noIdentity (lib : Lib) (st st1 : Dec Address) (k : String) (v : JSON)
    (hk : plainAddressKey lib k = true) (h : decodeAddressMember lib st k v = .ok st1)
    (hi : st.val.noIdentity) : st1.val.noIdentity := by
  unfold decodeAddressMember at h
  unfold plainAddressKey at hk
  cases hl : lookupField lib addressFields k with
  | none =>
    simp only [hl, Except.ok.injEq] at h
    subst h
    exact hi
  | some f =>
    cases f <;> simp only [hl, Except.ok.injEq] at hk h <;> first
      | exact absurd hk (by decide)
      | (subst h; exact hi)

theorem decodeAddressMembers_noIdentity (lib : Lib) (members : List (String × JSON)) :
    ∀ (st st1 : Dec Address), members.all (fun a => plainAddressKey lib a.1) = true →
      decodeAddressMembers lib members st = .ok st1 → st.val.noIdentity → st1.val.noIdentity := by
  induction members with
  | nil =>
    intro st st1 _ h hi
    simp only [decodeAddressMembers, Except.ok.injEq] at h
    subst h
    exact hi
  | cons m rest ih =>
    intro st st1 hall h hi
    obtain ⟨k, v⟩ := m
    simp only [List.all_cons, Bool.and_eq_true] at hall
    simp only [decodeAddressMembers] at h
    cases hm : decodeAddressMember lib st k v with
    | error e => simp [hm] at h
    | ok st2 =>
      simp only [hm] at h
      exact ih st2 st1 hall.2 h (decodeAddressMember_noIdentity lib st st2 k v hall.1 hm hi)

theorem decodeUserMember_noIdentity (lib : Lib) (st st1 : Dec User) (k : String) (v : JSON)
    (hk : plainUserMember lib (k, v) = true) (h : decodeUserMember lib st k v = .ok st1)
    (hi : st.val.noIdentity) : st1.val.noIdentity := by
  unfold decodeUserMember at h
  unfold plainUserMember at hk
  cases hl : lookupField lib userFields k with
  | none =>
    simp only [hl, Except.ok.injEq] at h
    subst h
    exact hi
  | some f =>
    cases f <;> simp only [hl] at hk h
    case ID => exact absurd hk (by decide)
    case CreatedAt => exact absurd hk (by decide)
    case UpdatedAt => exact absurd hk (by decide)
    case DeletedAt => exact absurd hk (by decide)
    case FirstName =>
      simp only [Except.ok.injEq] at h
      subst h
      exact hi
    case Age =>
      simp only [Except.ok.injEq] at h
      subst h
      exact hi
    case Address =>
      cases v with
      | obj members =>
        simp only [decodeAddress] at h
        cases ha : decodeAddressMembers lib members { val := st.val.Address, saved := st.saved } with
        | error e => simp [ha] at h
        | ok a =>
          simp only [ha, Except.ok.injEq] at h
          subst h
          exact ⟨hi.1, decodeAddressMembers_noIdentity lib members _ a hk ha hi.2⟩
      | null =>
        simp only [decodeAddress, Except.ok.injEq] at h
        subst h
        exact hi
      | bool b =>
        simp only [decodeAddress, Except.ok.injEq] at h
        subst h
        exact hi
      | num neg n fe =>
        simp only [decodeAddress, Except.ok.injEq] at h
        subst h
        exact hi
      | str t =>
        simp only [decodeAddress, Except.ok.injEq] at h
        subst h
        exact hi
      | arr items =>
        simp only [decodeAddress, Except.ok.injEq] at h
        subst h
        exact hi

theorem decodeUserMembers_noIdentity (lib : Lib) (members : List (String × JSON)) :
    ∀ (st st1 : Dec User), members.all (plainUserMember lib) = true →
      decodeUserMembers lib members st = .ok st1 → st.val.noIdentity → st1.val.noIdentity := by
  induction members with
  | nil =>
    intro st st1 _ h hi
    simp only [decodeUserMembers, Except.ok.injEq] at h
    subst h
    exact hi
  | cons m rest ih =>
    intro st st1 hall h hi
    obtain ⟨k, v⟩ := m
    simp only [List.all_cons, Bool.and_eq_true] at hall
    simp only [decodeUserMembers] at h
    cases hm : decodeUserMember lib st k v with
    | error e => simp [hm] at h
    | ok st2 =>
      simp only [hm] at h
      exact ih st2 st1 hall.2 h (decodeUserMember_noIdentity lib st st2 k v hall.1 hm hi)

theorem User.zero_noIdentity : User.zero.noIdentity := ⟨rfl, rfl, rfl⟩

theorem decodeBody_plain_noIdentity (lib : Lib) (body : ReqBody) (user : User)
    (hplain : plainBody lib body = true) (hdec : decodeBody lib body = .ok user) :
    user.noIdentity := by
  cases body with
  | bad msg => simp [decodeBody] at hdec
  | value j =>
    cases j with
    | obj members =>
      simp only [plainBody] at hplain
      simp only [decodeBody, decodeUser] at hdec
      cases hm : decodeUserMembers lib members { val := User.zero, saved := none } with
      | error e => simp [hm] at hdec
      | ok st =>
        simp only [hm] at hdec
        cases hsaved : st.saved with
        | some e => simp [hsaved] at hdec
        | none =>
          simp only [hsaved, Except.ok.injEq] at hdec
          subst hdec
          exact decodeUserMembers_noIdentity lib members _ st hplain hm User.zero_noIdentity
    | null =>
      simp only [decodeBody, decodeUser, Except.ok.injEq] at hdec
      subst hdec
      exact User.zero_noIdentity
    | bool b => simp [decodeBody, decodeUser, saveError] at hdec
    | num neg n fe => simp [decodeBody, decodeUser, saveError] at hdec
    | str t => simp [decodeBody, decodeUser, saveError] at hdec
    | arr items => simp [decodeBody, decodeUser, saveError] at hdec

/-- The decoded `User` is handed to `insertSql` as it is, and a body in
which no member name selects an identity or lifecycle field decodes to a
`User` that has none. -/
theorem createUser_plain_body (lib : Lib) (db : DB) (r : Request) (w : World)
    (user : User) (hplain : plainBody lib r.Body = true)
    (hdec : decodeBody lib r.Body = .ok user) :
    (createUser lib db r w).world.calls = w.calls ++ [DbCall.create user] ∧
    user.toModel = Model.zero ∧ user.Address.toModel = Model.zero ∧ user.Address.UserID = 0 := by
  have hi := decodeBody_plain_noIdentity lib r.Body user hplain hdec
  refine ⟨?_, hi.1, hi.2.1, hi.2.2⟩
  unfold createUser
  rw [hdec]
  simp only [insertSql]
  cases db.create user <;> simp [Outcome.world, World.logAdd, World.callAdd]

/-! ## Shutdown: the sequence of `main` on its own -/

theorem Proc.running_drainOrder : Proc.running.drainOrder := by
  simp [Proc.drainOrder, Proc.running]

theorem step_drainOrder (p p1 : Proc) (e : Event) (h : step p e = some p1)
    (hi : p.drainOrder) : p1.drainOrder := by
  obtain ⟨mainPc, httpPc, grpcPc, shuttingDown, poolClosed, exited, log⟩ := p
  obtain ⟨h1, h2, h3, h4⟩ := hi
  cases exited with
  | some code => simp [step] at h
  | none =>
    cases e <;> cases mainPc <;> cases httpPc <;> cases grpcPc <;> cases shuttingDown <;>
      simp [step, mainStep] at h <;> subst h <;> simp_all [Proc.drainOrder]

theorem run_drainOrder (es : List Event) :
    ∀ (p p1 : Proc), run es p = some p1 → p.drainOrder → p1.drainOrder := by
  induction es with
  | nil =>
    intro p p1 h hi
    simp only [run, Option.some.injEq] at h
    subst h
    exact hi
  | cons e rest ih =>
    intro p p1 h hi
    simp only [run] at h
    cases hs : step p e with
    | none => simp [hs] at h
    | some p2 =>
      simp only [hs] at h
      exact ih p2 p1 h (step_drainOrder p p2 e hs hi)

/-- In every execution that ends with exit code 0 the pool was closed, and
`Shutdown` had been called before: the sequence of `main` itself closes the
pool after `Shutdown` returns, whatever errors the two calls report. -/
theorem exit_zero_pool_closed (es : List Event) (p : Proc)
    (h : run es Proc.running = some p) (h0 : p.exited = some 0) :
    p.poolClosed = true ∧ p.shuttingDown = true := by
  have hi := run_drainOrder es Proc.running p h Proc.running_drainOrder
  have hr := hi.2.2.2 h0
  exact ⟨hi.1 hr, hi.2.2.1 (Or.inr (Or.inr hr))⟩

/-! ## A string in the age member is always a decoding error -/

theorem saveError_isSome (saved : Option JsonError) (e : JsonError) :
    (saveError saved e).isSome = true := by
  cases saved <;> rfl

theorem decodeUint_saved (bits : Nat) (field : String) (j : JSON) (cur : Nat)
    (saved : Option JsonError) (hs : saved.isSome = true) :
    (decodeUint bits field j cur saved).2.isSome = true := by
  unfold decodeUint
  cases j <;> simp only [hs, saveError_isSome]
  split <;> simp only [hs, saveError_isSome]

theorem decodeString_saved (field : String) (j : JSON) (cur : String)
    (saved : Option JsonError) (hs : saved.isSome = true) :
    (decodeString field j cur saved).2.isSome = true := by
  unfold decodeString
  cases j <;> simp only [hs, saveError_isSome]

theorem decodeAddressMember_saved (lib : Lib) (st st1 : Dec Address) (k : String) (v : JSON)
    (h : decodeAddressMember lib st k v = .ok st1) (hs : st.saved.isSome = true) :
    st1.saved.isSome = true := by
  unfold decodeAddressMember at h
  cases hl : lookupField lib addressFields k with
  | none =>
    simp only [hl, Except.ok.injEq] at h
    subst h
    exact hs
  | some f =>
    cases f <;> simp only [hl] at h
    case ID =>
      simp only [Except.ok.injEq] at h
      subst h
      exact decodeUint_saved _ _ _ _ _ hs
    case UserID =>
      simp only [Except.ok.injEq] at h
      subst h
      exact decodeUint_saved _ _ _ _ _ hs
    case City =>
      simp only [Except.ok.injEq] at h
      subst h
      exact decodeString_saved _ _ _ _ hs
    case ZipCode =>
      simp only [Except.ok.injEq] at h
      subst h
      exact decodeString_saved _ _ _ _ hs
    all_goals
      split at h
      · simp only [Except.ok.injEq] at h
        subst h
        exact hs
      · simp at h

theorem decodeAddressMembers_saved (lib : Lib) (members : List (String × JSON)) :
    ∀ (st st1 : Dec Address), decodeAddressMembers lib members st = .ok st1 →
      st.saved.isSome = true → st1.saved.isSome = true := by
  induction members with
  | nil =>
    intro st st1 h hs
    simp only [decodeAddressMembers, Except.ok.injEq] at h
    subst h
    exact hs
  | cons m rest ih =>
    intro st st1 h hs
    obtain ⟨k, v⟩ := m
    simp only [decodeAddressMembers] at h
    cases hm : decodeAddressMember lib st k v with
    | error e => simp [hm] at h
    | ok st2 =>
      simp only [hm] at h
      exact ih st2 st1 h (decodeAddressMember_saved lib st st2 k v hm hs)

theorem decodeAddress_saved (lib : Lib) (j : JSON) (st st1 : Dec Address)
    (h : decodeAddress lib j st = .ok st1) (hs : st.saved.isSome = true) :
    st1.saved.isSome = true := by
  unfold decodeAddress at h
  cases j with
  | obj members => exact decodeAddressMembers_saved lib members st st1 h hs
  | null =>
    simp only [Except.ok.injEq] at h
    subst h
    exact hs
  | bool b =>
    simp only [Except.ok.injEq] at h
    subst h
    exact saveError_isSome _ _
  | num neg n fe =>
    simp only [Except.ok.injEq] at h
    subst h
    exact saveError_isSome _ _
  | str t =>
    simp only [Except.ok.injEq] at h
    subst h
    exact saveError_isSome _ _
  | arr items =>
    simp only [Except.ok.injEq] at h
    subst h
    exact saveError_isSome _ _

theorem decodeUserMember_saved (lib : Lib) (st st1 : Dec User) (k : String) (v : JSON)
    (h : decodeUserMember lib st k v = .ok st1) (hs : st.saved.isSome = true) :
    st1.saved.isSome = true := by
  unfold decodeUserMember at h
  cases hl : lookupField lib userFields k with
  | none =>
    simp only [hl, Except.ok.injEq] at h
    subst h
    exact hs
  | some f =>
    cases f <;> simp only [hl] at h
    case ID =>
      simp only [Except.ok.injEq] at h
      subst h
      exact decodeUint_saved _ _ _ _ _ hs
    case Age =>
      simp only [Except.ok.injEq] at h
      subst h
      exact decodeUint_saved _ _ _ _ _ hs
    case FirstName =>
      simp only [Except.ok.injEq] at h
      subst h
      exact decodeString_saved _ _ _ _ hs
    case Address =>
      cases ha : decodeAddress lib v { val := st.val.Address, saved := st.saved } with
      | error e => simp [ha] at h
      | ok a =>
        simp only [ha, Except.ok.injEq] at h
        subst h
        exact decodeAddress_saved lib v _ a ha hs
    all_goals
      split at h
      · simp only [Except.ok.injEq] at h
        subst h
        exact hs
      · simp at h

theorem decodeUserMembers_saved (lib : Lib) (members : List (String × JSON)) :
    ∀ (st st1 : Dec User), decodeUserMembers lib members st = .ok st1 →
      st.saved.isSome = true → st1.saved.isSome = true := by
  induction members with
  | nil =>
    intro st st1 h hs
    simp only [decodeUserMembers, Except.ok.injEq] at h
    subst h
    exact hs
  | cons m rest ih =>
    intro st st1 h hs
    obtain ⟨k, v⟩ := m
    simp only [decodeUserMembers] at h
    cases hm : decodeUserMember lib st k v with
    | error e => simp [hm] at h
    | ok st2 =>
      simp only [hm] at h
      exact ih st2 st1 h (decodeUserMember_saved lib st st2 k v hm hs)

theorem lookupField_age (lib : Lib) : lookupField lib userFields "age" = some UserField.Age := rfl

theorem decodeUserMembers_age_string (lib : Lib) (t : String) (members : List (String × JSON)) :
    ∀ (st st1 : Dec User), ("age", JSON.str t) ∈ members →
      decodeUserMembers lib members st = .ok st1 → st1.saved.isSome = true := by
  induction members with
  | nil =>
    intro st st1 hmem
    simp at hmem
  | cons m rest ih =>
    intro st st1 hmem h
    obtain ⟨k, v⟩ := m
    simp only [decodeUserMembers] at h
    cases hm : decodeUserMember lib st k v with
    | error e => simp [hm] at h
    | ok st2 =>
      simp only [hm] at h
      rcases List.mem_cons.mp hmem with heq | hrest
      · have hk : k = "age" := (Prod.mk.inj heq).1.symm
        have hv : v = JSON.str t := (Prod.mk.inj heq).2.symm
        subst hk
        subst hv
        simp only [decodeUserMember, lookupField_age, decodeUint, JSON.kind,
          Except.ok.injEq] at hm
        subst hm
        exact decodeUserMembers_saved lib rest _ st1 h (saveError_isSome _ _)
      · exact ih st2 st1 hrest h

/-- A body whose object has a member `age` with a string value is never
decoded successfully, whatever its other members are. -/
theorem decodeBody_age_string (lib : Lib) (t : String) (members : List (String × JSON))
    (hmem : ("age", JSON.str t) ∈ members) :
    ∃ e, decodeBody lib (.value (.obj members)) = .error e := by
  simp only [decodeBody, decodeUser]
  cases hm : decodeUserMembers lib members { val := User.zero, saved := none } with
  | error e => exact ⟨e, rfl⟩
  | ok st =>
    have hs := decodeUserMembers_age_string lib t members _ st hmem hm
    cases hsaved : st.saved with
    | none => simp [hsaved] at hs
    | some e => exact ⟨e, by simp only [hsaved]⟩

/-- A create body whose `age` member is a string is answered with status
400 and does not reach the store, whatever else it contains. -/
theorem createUser_age_string (lib : Lib) (db : DB) (r : Request) (w : World) (t : String)
    (members : List (String × JSON)) (hbody : r.Body = .value (.obj members))
    (hmem : ("age", JSON.str t) ∈ members) (hfresh : w.resp.status = none) :
    (createUser lib db r w).world.resp.status = some 400 ∧
    (createUser lib db r w).world.calls = w.calls := by
  obtain ⟨e, he⟩ := decodeBody_age_string lib t members hmem
  unfold createUser
  rw [hbody, he]
  simp [Outcome.world, httpError_status, hfresh]

/-! ## What `strconv.Atoi` accepts -/

/-- Segments that are not numerals are rejected; signed numerals are
accepted. -/
theorem Atoi_examples :
    Atoi "abc" = .error .invalidSyntax ∧ Atoi "12x" = .error .invalidSyntax ∧
    Atoi "" = .error .invalidSyntax ∧ Atoi "-" = .error .invalidSyntax ∧
    Atoi "1.5" = .error .invalidSyntax ∧ Atoi "9223372036854775808" = .error .outOfRange ∧
    Atoi "42" = .ok 42 ∧ Atoi "007" = .ok 7 ∧ Atoi "+5" = .ok 5 ∧ Atoi "-5" = .ok (-5) :=
  ⟨rfl, rfl, rfl, rfl, rfl, rfl, rfl, rfl, rfl, rfl⟩

/-- Every number `strconv.Atoi` returns is a 64-bit signed value. -/
theorem Atoi_range (s : String) (i : Int) (h : Atoi s = .ok i) :
    -(2 ^ 63 : Int) ≤ i ∧ i < 2 ^ 63 := by
  unfold Atoi parseInt at h
  cases hd : s.data with
  | nil =>
    rw [hd] at h
    simp at h
  | cons c cs =>
    rw [hd] at h
    dsimp only at h
    split at h
    · simp at h
    · simp at h
    · rename_i un hu
      split at h
      · simp at h
      · split at h
        · simp at h
        · rename_i h1 h2
          simp only [Except.ok.injEq] at h
          subst h
          by_cases hneg : (c == '-') = true
          · simp only [hneg, Bool.true_and, decide_eq_true_eq, not_lt, if_true] at h2 ⊢
            have : (un : Int) ≤ 2 ^ 63 := by exact_mod_cast h2
            constructor <;> omega
          · simp only [hneg, Bool.not_false, Bool.true_and, decide_eq_true_eq, not_le,
              Bool.false_eq_true, if_false] at h1 ⊢
            have : (un : Int) < 2 ^ 63 := by exact_mod_cast h1
            constructor <;> omega

/-- For a segment that `strconv.Atoi` accepts with a value that is not
negative, `querySql` is called with exactly that value. -/
theorem getUserById_nonnegative_segment (lib : Lib) (db : DB) (w : World) (id : String)
    (idInt : Int) (hid : Atoi id = .ok idInt) (hpos : 0 ≤ idInt) :
    (getUserById lib db w id).world.calls = w.calls ++ [DbCall.find idInt.toNat] := by
  have hr := (Atoi_range id idInt hid).2
  have : toUint idInt = idInt.toNat := by
    unfold toUint
    congr 1
    exact Int.emod_eq_of_lt hpos (lt_trans hr (by norm_num))
  rw [← this]
  exact getUserById_accepted_segment lib db w id idInt hid

/-- For a segment that `strconv.Atoi` accepts with a negative value,
`querySql` is called with that value plus `2 ^ 64`. -/
theorem getUserById_negative_value (lib : Lib) (db : DB) (w : World) (id : String)
    (idInt : Int) (hid : Atoi id = .ok idInt) (hneg : idInt < 0) :
    (getUserById lib db w id).world.calls = w.calls ++ [DbCall.find (idInt + 2 ^ 64).toNat] := by
  have hr := (Atoi_range id idInt hid).1
  have : toUint idInt = (idInt + 2 ^ 64).toNat := by
    unfold toUint
    congr 1
    rw [← Int.add_emod_self]
    exact Int.emod_eq_of_lt (by omega) (by omega)
  rw [← this]
  exact getUserById_accepted_segment lib db w id idInt hid

end GormOracle
